import Mathlib

/-!
Verification of the ScentAssist firmware control loop
(src/ScentAssistFirmware/src/main.cpp).

The development shallowly embeds the firmware: machine integers become
Nat with explicit reduction modulo 2^32 or 256 where the C code
truncates, the binary32 float arithmetic of the IIR filter is modelled
exactly (round to nearest, ties to even), and the loop function becomes
a step function on an explicit state record.  Each call to micros() is
modelled by a per-tick time sample: within one tick all micros() calls
return the same value, which is sound for the properties proved here
because no property depends on time advancing inside a single tick.
-/

set_option maxRecDepth 100000

/-- Wrap modulus of the 32-bit microsecond counter (2 to the power 32). -/
def U32 : Nat := 4294967296

/-! ## Time constants (src lines 274-280) -/

def c_DELAY_TIME : Nat := 300000000
def c_RUN_TIME : Nat := 480000000
def c_HEARTBEAT_BLINK_TIME : Nat := 5000000
def c_BLOCK_DETECTION_DELAY : Nat := 3000000
def c_WAITING_BLINK_TIME : Nat := 100000
def c_DETECTION_INTER_DELAY : Nat := 100000
def FILTER_LENGTH : Nat := 10
def MIN_THRESHOLD : Nat := 20

/-- Unsigned 32-bit subtraction now - lastTime as the C expression
uint32_t(micros() - lastTime) computes it (src line 318): both operands
are reduced modulo 2^32 and the difference wraps. -/
def elapsedOf (now lastTime : Nat) : Nat :=
  (now % U32 + U32 - lastTime % U32) % U32

/-- Embedding of timepassed (src lines 314-328).  The call micros() is
passed in as the argument now. -/
def timepassed (timeLeft now lastTime : Nat) : Nat :=
  let timeElapsed := elapsedOf now lastTime
  if timeElapsed < timeLeft then timeLeft - timeElapsed else 0

/-- Embedding of qualifyAllBits (src lines 330-335): mask is
(1ULL shifted left by 8) - 1 = 255. -/
def qualifyAllBits (val : Nat) : Bool :=
  (val &&& 255) == 255

/-- One push into the 8-bit detection shift register (src lines 429-430):
detectionSet = detectionSet << 1 truncated to uint8, then or-ed with the
detection bit. -/
def pushBit (ds : Nat) (b : Bool) : Nat :=
  (2 * ds % 256) ||| (if b then 1 else 0)

/-- A sequence of pushes into the detection shift register. -/
def pushSeq (ds : Nat) (bs : List Bool) : Nat :=
  bs.foldl pushBit ds

/-! ## Exact binary32 model of the IIR filter (src lines 351-354)

On the AVR target float is IEEE binary32 with a 24-bit significand and
round to nearest, ties to even.  All values arising in the filter are
nonnegative multiples of 2 to the power -25, so a value is represented
by its numerator N at that fixed scale.  c_IIR_COEF = 0.40f is
13421773 * 2^-25 and (1 - c_IIR_COEF) computed in float is
20132660 * 2^-25. -/

def fl04num : Nat := 13421773
def fl06num : Nat := 20132660

/-- Round the value N * 2^-25 (N < 2^34) to the nearest binary32 float,
ties to even, returning the numerator of the result at scale 2^-25. -/
def rne25 (N : Nat) : Nat :=
  if N < 2 ^ 24 then N
  else
    let sh :=
      if N < 2 ^ 25 then 1 else if N < 2 ^ 26 then 2 else if N < 2 ^ 27 then 3
      else if N < 2 ^ 28 then 4 else if N < 2 ^ 29 then 5 else if N < 2 ^ 30 then 6
      else if N < 2 ^ 31 then 7 else if N < 2 ^ 32 then 8 else if N < 2 ^ 33 then 9
      else 10
    let q := N / 2 ^ sh
    let r := N % 2 ^ sh
    let half := 2 ^ (sh - 1)
    let q2 := if half < r then q + 1 else if r < half then q else if q % 2 = 0 then q else q + 1
    q2 * 2 ^ sh

/-- The filtered sample uint8_t(float(average) * c_IIR_COEF +
float(sample) * (1 - c_IIR_COEF)) for average, sample < 256: each float
product is rounded, the sum is rounded, and the conversion to uint8_t
truncates (the value is always below 256 for inputs below 256). -/
def iirFilter (average sample : Nat) : Nat :=
  rne25 (rne25 (average * fl04num) + rne25 (sample * fl06num)) / 2 ^ 25

/-- The average computed by the loop at src lines 345-349.  The C loop
guard is the expression i++, which evaluates to 0 (false) on its first
test, so the accumulation body never executes and average stays 0; the
division by FILTER_LENGTH then yields 0 for every buffer content. -/
def qualifyAverage (readings : List Nat) : Nat :=
  0 / FILTER_LENGTH

/-- Modelled from the spec (section 4.2 step 2): the rolling average the
averaging loop was intended to compute, the sum of the stored samples
divided by FILTER_LENGTH.  Used only to compare the code against the
claimed behaviour. -/
def rollingAverageSpec (readings : List Nat) : Nat :=
  readings.sum / FILTER_LENGTH

/-- The write-index update of the circular history (src lines 360-364). -/
def nextReadingIndex (i : Nat) : Nat :=
  if i = FILTER_LENGTH then 0 else i + 1

/-- Persistent statics of qualifyAnalog (src lines 339-340). -/
structure QualifyState where
  readings : List Nat
  readingIndex : Nat
  deriving DecidableEq

/-- Embedding of qualifyAnalog (src lines 337-379).  The raw analog
reading is truncated to uint8 on assignment; the store
readings[readingIndex] = sample is modelled by List.set, which leaves
the list unchanged when the index is out of range (the C code commits
an out-of-bounds write there, see the C5 theorem). -/
def qualifyAnalog (qs : QualifyState) (raw : Nat) : QualifyState × Bool :=
  let sample := raw % 256
  let average := qualifyAverage qs.readings
  let sample2 := iirFilter average sample
  let readings2 := qs.readings.set qs.readingIndex sample2
  let idx2 := nextReadingIndex qs.readingIndex
  (⟨readings2, idx2⟩, decide (4 * max MIN_THRESHOLD average < sample2))

/-! ## Blink indicator (src lines 381-405) -/

/-- Persistent statics of blink plus the LED pin it reads and writes. -/
structure BlinkState where
  led : Bool
  usecRemaining : Nat
  lastUSec : Nat
  deriving DecidableEq

/-- Embedding of blink (src lines 381-405): decrement the phase
countdown; on expiry toggle the LED, arming 100000 us when turning on
and the configured period when turning off; always refresh lastUSec. -/
def blink (bs : BlinkState) (blinkFrequency now : Nat) : BlinkState :=
  let rem := timepassed bs.usecRemaining now bs.lastUSec
  if rem = 0 then
    if bs.led = false then ⟨true, 100000, now⟩
    else ⟨false, blinkFrequency, now⟩
  else ⟨bs.led, rem, now⟩

/-! ## The control loop (src lines 409-554) -/

/-- The state enumeration (src lines 283-288). -/
inductive controlState where
  | IDLE
  | DETECTED
  | ACTIVATE
  | RESET
  deriving DecidableEq

/-- All static locals of loop, the statics of qualifyAnalog and blink,
and the output pins.  ledBuiltinPin is an Option: none records that the
last digitalWrite(LED_BUILTIN, detect) passed the uninitialized local
detect. -/
structure LoopState where
  state : controlState
  lastUSec : Nat
  timeRemaining : Nat
  stopDetection : Nat
  fanTimeRemain : Nat
  blockMotionIn : Nat
  sampleReadTime : Nat
  detectionSet : Nat
  fanRunning : Bool
  readings : List Nat
  readingIndex : Nat
  ledPin : Bool
  relayPin : Bool
  ledBuiltinPin : Option Bool
  blinkUsecRemaining : Nat
  blinkLastUSec : Nat
  deriving DecidableEq

/-- Inputs of one tick: the micros() sample, the raw analog reading and
the pushbutton level. -/
structure Input where
  now : Nat
  rawSample : Nat
  button : Bool
  deriving DecidableEq

/-- Observables of one tick: the qualified-motion flag the FSM consumed
and the milliseconds of blocking delay() the tick performed. -/
structure TickOut where
  motionDetected : Bool
  delayMs : Nat
  deriving DecidableEq

/-- Src lines 424-443: read and qualify the motion input when not
blocked, push one detection bit into the shift register whenever the
inter-sample countdown has reached 0 (rearming it) and otherwise
decrement that countdown, then write the local detect to LED_BUILTIN.
Returns the updated state, the qualified-motion flag, and the value
written to LED_BUILTIN (none when detect was never assigned). -/
def qualifyPhase (s : LoopState) (i : Input) : LoopState × Bool × Option Bool :=
  if s.blockMotionIn = 0 then
    let qa := qualifyAnalog ⟨s.readings, s.readingIndex⟩ i.rawSample
    let d := qa.2
    if s.sampleReadTime = 0 then
      let ds := pushBit s.detectionSet d
      ({ s with readings := qa.1.readings, readingIndex := qa.1.readingIndex,
                detectionSet := ds, sampleReadTime := c_DETECTION_INTER_DELAY,
                ledBuiltinPin := some d },
       qualifyAllBits ds, some d)
    else
      ({ s with readings := qa.1.readings, readingIndex := qa.1.readingIndex,
                sampleReadTime := timepassed s.sampleReadTime i.now s.lastUSec,
                ledBuiltinPin := some d },
       qualifyAllBits s.detectionSet, some d)
  else
    ({ s with ledBuiltinPin := none }, false, none)

/-- Src lines 445-465: decrement the four countdowns that are positive,
record the timer-expiry transition to ACTIVATE when timeRemaining is
decremented to exactly 0, and refresh lastUSec.  Returns the updated
state and the local nextState. -/
def timersPhase (s : LoopState) (i : Input) : LoopState × controlState :=
  let tr := if 0 < s.timeRemaining then timepassed s.timeRemaining i.now s.lastUSec
            else s.timeRemaining
  let ns := if 0 < s.timeRemaining ∧ tr = 0 then controlState.ACTIVATE else s.state
  let sd := if 0 < s.stopDetection then timepassed s.stopDetection i.now s.lastUSec
            else s.stopDetection
  let bm := if 0 < s.blockMotionIn then timepassed s.blockMotionIn i.now s.lastUSec
            else s.blockMotionIn
  let ft := if 0 < s.fanTimeRemain then timepassed s.fanTimeRemain i.now s.lastUSec
            else s.fanTimeRemain
  ({ s with timeRemaining := tr, stopDetection := sd, blockMotionIn := bm,
            fanTimeRemain := ft, lastUSec := i.now }, ns)

/-- Run blink on the loop state, threading the LED pin and the blink
statics. -/
def applyBlink (s : LoopState) (freq now : Nat) : LoopState :=
  let b := blink ⟨s.ledPin, s.blinkUsecRemaining, s.blinkLastUSec⟩ freq now
  { s with ledPin := b.led, blinkUsecRemaining := b.usecRemaining,
           blinkLastUSec := b.lastUSec }

/-- Src lines 467-474: heartbeat blink while the fan is off and no delay
countdown runs, waiting blink while the delay countdown runs. -/
def blinkPhase (s : LoopState) (i : Input) : LoopState :=
  if s.fanRunning = false ∧ s.timeRemaining = 0 then
    applyBlink s c_HEARTBEAT_BLINK_TIME i.now
  else if 0 < s.timeRemaining then applyBlink s c_WAITING_BLINK_TIME i.now
  else s

/-- Src lines 476-553: the finite state machine switch, evaluated on the
post-decrement timers, producing the committed next state and the
milliseconds of blocking delay() performed. -/
def fsmPhase (s : LoopState) (ns : controlState) (motion manual : Bool) :
    LoopState × Nat :=
  match s.state with
  | controlState.IDLE =>
    let ns2 :=
      if motion = true ∧ s.stopDetection = 0 then controlState.DETECTED
      else if s.fanRunning = true ∧ manual = true then controlState.RESET
      else if manual = true ∧ s.fanRunning = false then controlState.ACTIVATE
      else if s.fanTimeRemain = 0 ∧ s.fanRunning = true then controlState.RESET
      else ns
    ({ s with state := ns2 }, 0)
  | controlState.DETECTED =>
    if s.fanRunning = true then
      ({ s with state := controlState.ACTIVATE,
                stopDetection := c_BLOCK_DETECTION_DELAY }, 0)
    else
      ({ s with state := controlState.IDLE, timeRemaining := c_DELAY_TIME,
                stopDetection := c_BLOCK_DETECTION_DELAY }, 0)
  | controlState.ACTIVATE =>
    ({ s with state := controlState.IDLE, fanRunning := true,
              fanTimeRemain := c_RUN_TIME, relayPin := true, ledPin := true,
              timeRemaining := 0 }, 350)
  | controlState.RESET =>
    ({ s with state := controlState.IDLE, fanRunning := false,
              fanTimeRemain := 0, timeRemaining := 0,
              blockMotionIn := 5 * c_BLOCK_DETECTION_DELAY,
              relayPin := false, ledPin := false },
     if manual then 3000 else 0)

/-- One full tick of loop (src lines 409-554). -/
def step (s : LoopState) (i : Input) : LoopState × TickOut :=
  let q := qualifyPhase s i
  let t := timersPhase q.1 i
  let s3 := blinkPhase t.1 i
  let f := fsmPhase s3 t.2 q.2.1 i.button
  (f.1, ⟨q.2.1, f.2⟩)

/-- Iterated ticks. -/
def runState (s : LoopState) (ins : List Input) : LoopState :=
  ins.foldl (fun a i => (step a i).1) s

/-- The list of states after each tick. -/
def trace (s : LoopState) (ins : List Input) : List LoopState :=
  match ins with
  | [] => []
  | i :: r =>
    let s2 := (step s i).1
    s2 :: trace s2 r

/-- Total wrapped elapsed time consumed by a tick sequence, starting
from the time reference last. -/
def elapsedSum (last : Nat) (ins : List Input) : Nat :=
  match ins with
  | [] => 0
  | i :: r => elapsedOf i.now last + elapsedSum i.now r

/-- The state after setup: statics zero-initialized, FSM in IDLE, relay
and LED driven low by setup. -/
def initState : LoopState where
  state := controlState.IDLE
  lastUSec := 0
  timeRemaining := 0
  stopDetection := 0
  fanTimeRemain := 0
  blockMotionIn := 0
  sampleReadTime := 0
  detectionSet := 0
  fanRunning := false
  readings := List.replicate FILTER_LENGTH 0
  readingIndex := 0
  ledPin := false
  relayPin := false
  ledBuiltinPin := some false
  blinkUsecRemaining := 0
  blinkLastUSec := 0

/-! ## Basic facts about the timer arithmetic -/

theorem timepassed_le (t now last : Nat) : timepassed t now last ≤ t := by
  simp only [timepassed]
  split <;> omega

theorem timepassed_ge (t now last : Nat) :
    t - elapsedOf now last ≤ timepassed t now last := by
  simp only [timepassed]
  split <;> omega

/-- Claim C1: timepassed computes elapsed = now - lastTime by wrap-safe
unsigned 32-bit subtraction and returns timeLeft - elapsed when
elapsed < timeLeft and 0 otherwise; the result never exceeds timeLeft
(no underflow), and whenever the true elapsed time t1 - t0 is below the
wrap period the wrapped subtraction of the truncated counter values
recovers it exactly. -/
theorem timepassed_wrap_safe_decrement (timeLeft now lastTime : Nat) :
    timepassed timeLeft now lastTime ≤ timeLeft ∧
    (elapsedOf now lastTime < timeLeft →
      timepassed timeLeft now lastTime = timeLeft - elapsedOf now lastTime) ∧
    (timeLeft ≤ elapsedOf now lastTime → timepassed timeLeft now lastTime = 0) ∧
    (∀ t0 t1 : Nat, t0 ≤ t1 → t1 - t0 < U32 →
      elapsedOf (t1 % U32) (t0 % U32) = t1 - t0) := by
  refine ⟨timepassed_le _ _ _, ?_, ?_, ?_⟩
  · intro h
    simp only [timepassed]
    split <;> omega
  · intro h
    simp only [timepassed]
    split <;> omega
  · intro t0 t1 h1 h2
    simp only [elapsedOf, U32] at *
    omega

/-- Witness for C1: a concrete wrap-around case, with the counter read
just after the 2^32 boundary and the reference just before it. -/
theorem timepassed_wrap_safe_decrement_witness :
    elapsedOf 3 (U32 - 2) < 10 ∧
    timepassed 10 3 (U32 - 2) = 10 - elapsedOf 3 (U32 - 2) ∧
    elapsedOf ((U32 + 3) % U32) ((U32 - 2) % U32) = (U32 + 3) - (U32 - 2) := by
  refine ⟨by decide, (timepassed_wrap_safe_decrement 10 3 (U32 - 2)).2.1 (by decide), ?_⟩
  exact (timepassed_wrap_safe_decrement 0 0 0).2.2.2 (U32 - 2) (U32 + 3)
    (by decide) (by decide)

/-- Claim C9: whenever blink turns the LED from off to on it arms the ON
phase to exactly 100000 us regardless of the configured period, and
whenever it turns the LED from on to off it arms the OFF phase to
exactly the configured period. -/
theorem blink_asymmetric_phases (bs : BlinkState) (freq now : Nat) :
    (bs.led = false → (blink bs freq now).led = true →
      (blink bs freq now).usecRemaining = 100000) ∧
    (bs.led = true → (blink bs freq now).led = false →
      (blink bs freq now).usecRemaining = freq) := by
  simp only [blink]
  split_ifs <;> constructor <;> intro h1 h2 <;> simp_all

/-- Witness for C9: one off-to-on toggle and one on-to-off toggle at a
period of 77 us. -/
theorem blink_asymmetric_phases_witness :
    (blink ⟨false, 0, 0⟩ 77 0).usecRemaining = 100000 ∧
    (blink ⟨true, 0, 5⟩ 77 5).usecRemaining = 77 := by
  refine ⟨(blink_asymmetric_phases ⟨false, 0, 0⟩ 77 0).1 rfl (by decide), ?_⟩
  exact (blink_asymmetric_phases ⟨true, 0, 5⟩ 77 5).2 rfl (by decide)

/-! ## The averaging-loop defect (claims C3 and C4) -/

/-- Claim C4 (code bug): the average used by the qualifier is 0 for
every buffer content, because the summation loop never executes (its C
guard is the expression i++, which is 0 at the first test).  At the
failing input, a history of ten stored samples of value 100, the code
computes 0 while the claimed rolling average is 100. -/
theorem rolling_average_bug :
    qualifyAverage (List.replicate 10 100) = 0 ∧
    rollingAverageSpec (List.replicate 10 100) = 100 ∧
    qualifyAverage (List.replicate 10 100) ≠
      rollingAverageSpec (List.replicate 10 100) := by
  decide

/-- Claim C3 (code bug): with the history holding ten stored samples of
135 and a constant raw stream of 135 (equal to the rolling average), the
code flags instantaneous detection, because its average is 0 (see C4) so
the threshold is 4 * max(20, 0) = 80 and the filtered sample
trunc(0.6f * 135) = 81 exceeds it; under the claimed formula with
avg = 135 the filtered sample is 135 and the threshold is 540, so no
detection should occur. -/
theorem analog_threshold_average_bug :
    (qualifyAnalog ⟨List.replicate 10 135, 0⟩ 135).2 = true ∧
    rollingAverageSpec (List.replicate 10 135) = 135 ∧
    iirFilter 0 135 = 81 ∧
    iirFilter 135 135 = 135 ∧
    ¬ 4 * max MIN_THRESHOLD 135 < 135 := by
  decide

/-- Claim C5 (code bug): starting from 0 the write index is incremented
past the valid range: after ten stores it equals 10 = FILTER_LENGTH,
which is outside [0, 10), and the eleventh store addresses readings[10],
one past the end of the buffer (modelled: the List.set write lands in no
slot), whereas the claimed wrap (9 + 1) mod 10 = 0 would keep it in
range. -/
theorem reading_index_overrun_bug :
    nextReadingIndex^[10] 0 = 10 ∧
    ¬ nextReadingIndex^[10] 0 < FILTER_LENGTH ∧
    (9 + 1) % FILTER_LENGTH = 0 ∧
    (qualifyAnalog ⟨List.replicate 10 5, 10⟩ 200).1.readings =
      List.replicate 10 5 := by
  decide

/-! ## Field-tracking lemmas for the tick phases -/

theorem qualifyPhase_state (s : LoopState) (i : Input) :
    (qualifyPhase s i).1.state = s.state := by
  simp only [qualifyPhase]
  split_ifs <;> rfl

theorem qualifyPhase_lastUSec (s : LoopState) (i : Input) :
    (qualifyPhase s i).1.lastUSec = s.lastUSec := by
  simp only [qualifyPhase]
  split_ifs <;> rfl

theorem qualifyPhase_timeRemaining (s : LoopState) (i : Input) :
    (qualifyPhase s i).1.timeRemaining = s.timeRemaining := by
  simp only [qualifyPhase]
  split_ifs <;> rfl

theorem qualifyPhase_stopDetection (s : LoopState) (i : Input) :
    (qualifyPhase s i).1.stopDetection = s.stopDetection := by
  simp only [qualifyPhase]
  split_ifs <;> rfl

theorem qualifyPhase_fanTimeRemain (s : LoopState) (i : Input) :
    (qualifyPhase s i).1.fanTimeRemain = s.fanTimeRemain := by
  simp only [qualifyPhase]
  split_ifs <;> rfl

theorem qualifyPhase_blockMotionIn (s : LoopState) (i : Input) :
    (qualifyPhase s i).1.blockMotionIn = s.blockMotionIn := by
  simp only [qualifyPhase]
  split_ifs <;> rfl

theorem qualifyPhase_fanRunning (s : LoopState) (i : Input) :
    (qualifyPhase s i).1.fanRunning = s.fanRunning := by
  simp only [qualifyPhase]
  split_ifs <;> rfl

theorem qualifyPhase_motion_of_unblocked (s : LoopState) (i : Input)
    (h : s.blockMotionIn = 0) :
    (qualifyPhase s i).2.1 = qualifyAllBits ((qualifyPhase s i).1.detectionSet) := by
  simp only [qualifyPhase, if_pos h]
  split_ifs <;> rfl

theorem qualifyPhase_push (s : LoopState) (i : Input)
    (h : s.blockMotionIn = 0) (h2 : s.sampleReadTime = 0) :
    (qualifyPhase s i).1.detectionSet =
      pushBit s.detectionSet (qualifyAnalog ⟨s.readings, s.readingIndex⟩ i.rawSample).2 ∧
    (qualifyPhase s i).1.sampleReadTime = c_DETECTION_INTER_DELAY := by
  simp only [qualifyPhase, if_pos h, if_pos h2]
  refine ⟨?_, ?_⟩ <;> trivial

theorem qualifyPhase_no_push (s : LoopState) (i : Input)
    (h : s.blockMotionIn = 0) (h2 : ¬ s.sampleReadTime = 0) :
    (qualifyPhase s i).1.detectionSet = s.detectionSet := by
  simp only [qualifyPhase, if_pos h, if_neg h2]

theorem qualifyPhase_blocked (s : LoopState) (i : Input)
    (h : ¬ s.blockMotionIn = 0) :
    (qualifyPhase s i).1.detectionSet = s.detectionSet ∧
    (qualifyPhase s i).2.1 = false := by
  simp only [qualifyPhase, if_neg h]
  refine ⟨?_, ?_⟩ <;> trivial

theorem timersPhase_state (s : LoopState) (i : Input) :
    (timersPhase s i).1.state = s.state := rfl

theorem timersPhase_fanRunning (s : LoopState) (i : Input) :
    (timersPhase s i).1.fanRunning = s.fanRunning := rfl

theorem timersPhase_detectionSet (s : LoopState) (i : Input) :
    (timersPhase s i).1.detectionSet = s.detectionSet := rfl

theorem timersPhase_sampleReadTime (s : LoopState) (i : Input) :
    (timersPhase s i).1.sampleReadTime = s.sampleReadTime := rfl

theorem timersPhase_lastUSec (s : LoopState) (i : Input) :
    (timersPhase s i).1.lastUSec = i.now := rfl

theorem timersPhase_timeRemaining (s : LoopState) (i : Input) :
    (timersPhase s i).1.timeRemaining =
      if 0 < s.timeRemaining then timepassed s.timeRemaining i.now s.lastUSec
      else s.timeRemaining := rfl

theorem timersPhase_stopDetection (s : LoopState) (i : Input) :
    (timersPhase s i).1.stopDetection =
      if 0 < s.stopDetection then timepassed s.stopDetection i.now s.lastUSec
      else s.stopDetection := rfl

theorem timersPhase_fanTimeRemain (s : LoopState) (i : Input) :
    (timersPhase s i).1.fanTimeRemain =
      if 0 < s.fanTimeRemain then timepassed s.fanTimeRemain i.now s.lastUSec
      else s.fanTimeRemain := rfl

theorem timersPhase_ns (s : LoopState) (i : Input) :
    (timersPhase s i).2 =
      if 0 < s.timeRemaining ∧
          (if 0 < s.timeRemaining then timepassed s.timeRemaining i.now s.lastUSec
           else s.timeRemaining) = 0
      then controlState.ACTIVATE else s.state := rfl

theorem blinkPhase_state (s : LoopState) (i : Input) :
    (blinkPhase s i).state = s.state := by
  simp only [blinkPhase, applyBlink]
  split_ifs <;> rfl

theorem blinkPhase_lastUSec (s : LoopState) (i : Input) :
    (blinkPhase s i).lastUSec = s.lastUSec := by
  simp only [blinkPhase, applyBlink]
  split_ifs <;> rfl

theorem blinkPhase_timeRemaining (s : LoopState) (i : Input) :
    (blinkPhase s i).timeRemaining = s.timeRemaining := by
  simp only [blinkPhase, applyBlink]
  split_ifs <;> rfl

theorem blinkPhase_stopDetection (s : LoopState) (i : Input) :
    (blinkPhase s i).stopDetection = s.stopDetection := by
  simp only [blinkPhase, applyBlink]
  split_ifs <;> rfl

theorem blinkPhase_fanTimeRemain (s : LoopState) (i : Input) :
    (blinkPhase s i).fanTimeRemain = s.fanTimeRemain := by
  simp only [blinkPhase, applyBlink]
  split_ifs <;> rfl

theorem blinkPhase_blockMotionIn (s : LoopState) (i : Input) :
    (blinkPhase s i).blockMotionIn = s.blockMotionIn := by
  simp only [blinkPhase, applyBlink]
  split_ifs <;> rfl

theorem blinkPhase_fanRunning (s : LoopState) (i : Input) :
    (blinkPhase s i).fanRunning = s.fanRunning := by
  simp only [blinkPhase, applyBlink]
  split_ifs <;> rfl

theorem blinkPhase_detectionSet (s : LoopState) (i : Input) :
    (blinkPhase s i).detectionSet = s.detectionSet := by
  simp only [blinkPhase, applyBlink]
  split_ifs <;> rfl

theorem blinkPhase_sampleReadTime (s : LoopState) (i : Input) :
    (blinkPhase s i).sampleReadTime = s.sampleReadTime := by
  simp only [blinkPhase, applyBlink]
  split_ifs <;> rfl

theorem fsmPhase_idle (s : LoopState) (ns : controlState) (m ma : Bool)
    (h : s.state = controlState.IDLE) :
    fsmPhase s ns m ma =
      ({ s with state :=
          if m = true ∧ s.stopDetection = 0 then controlState.DETECTED
          else if s.fanRunning = true ∧ ma = true then controlState.RESET
          else if ma = true ∧ s.fanRunning = false then controlState.ACTIVATE
          else if s.fanTimeRemain = 0 ∧ s.fanRunning = true then controlState.RESET
          else ns }, 0) := by
  unfold fsmPhase
  rw [h]

theorem fsmPhase_detected (s : LoopState) (ns : controlState) (m ma : Bool)
    (h : s.state = controlState.DETECTED) :
    fsmPhase s ns m ma =
      (if s.fanRunning = true then
        ({ s with state := controlState.ACTIVATE,
                  stopDetection := c_BLOCK_DETECTION_DELAY }, 0)
      else
        ({ s with state := controlState.IDLE, timeRemaining := c_DELAY_TIME,
                  stopDetection := c_BLOCK_DETECTION_DELAY }, 0)) := by
  unfold fsmPhase
  rw [h]

theorem fsmPhase_activate (s : LoopState) (ns : controlState) (m ma : Bool)
    (h : s.state = controlState.ACTIVATE) :
    fsmPhase s ns m ma =
      ({ s with state := controlState.IDLE, fanRunning := true,
                fanTimeRemain := c_RUN_TIME, relayPin := true, ledPin := true,
                timeRemaining := 0 }, 350) := by
  unfold fsmPhase
  rw [h]

theorem fsmPhase_reset (s : LoopState) (ns : controlState) (m ma : Bool)
    (h : s.state = controlState.RESET) :
    fsmPhase s ns m ma =
      ({ s with state := controlState.IDLE, fanRunning := false,
                fanTimeRemain := 0, timeRemaining := 0,
                blockMotionIn := 5 * c_BLOCK_DETECTION_DELAY,
                relayPin := false, ledPin := false },
       if ma then 3000 else 0) := by
  unfold fsmPhase
  rw [h]

theorem fsmPhase_lastUSec (s : LoopState) (ns : controlState) (m ma : Bool) :
    (fsmPhase s ns m ma).1.lastUSec = s.lastUSec := by
  unfold fsmPhase
  split <;> (try split_ifs) <;> rfl

theorem fsmPhase_detectionSet (s : LoopState) (ns : controlState) (m ma : Bool) :
    (fsmPhase s ns m ma).1.detectionSet = s.detectionSet := by
  unfold fsmPhase
  split <;> (try split_ifs) <;> rfl

theorem fsmPhase_sampleReadTime (s : LoopState) (ns : controlState) (m ma : Bool) :
    (fsmPhase s ns m ma).1.sampleReadTime = s.sampleReadTime := by
  unfold fsmPhase
  split <;> (try split_ifs) <;> rfl

theorem step_motion (s : LoopState) (i : Input) :
    (step s i).2.motionDetected = (qualifyPhase s i).2.1 := rfl

theorem step_lastUSec (s : LoopState) (i : Input) :
    (step s i).1.lastUSec = i.now := by
  show (fsmPhase _ _ _ _).1.lastUSec = i.now
  rw [fsmPhase_lastUSec, blinkPhase_lastUSec, timersPhase_lastUSec]

theorem step_detectionSet (s : LoopState) (i : Input) :
    (step s i).1.detectionSet = (qualifyPhase s i).1.detectionSet := by
  show (fsmPhase _ _ _ _).1.detectionSet = _
  rw [fsmPhase_detectionSet, blinkPhase_detectionSet, timersPhase_detectionSet]

theorem step_sampleReadTime (s : LoopState) (i : Input) :
    (step s i).1.sampleReadTime = (qualifyPhase s i).1.sampleReadTime := by
  show (fsmPhase _ _ _ _).1.sampleReadTime = _
  rw [fsmPhase_sampleReadTime, blinkPhase_sampleReadTime, timersPhase_sampleReadTime]

/-- The loop state as it stands when the FSM switch is entered: after
the qualify, timer-decrement and blink phases. -/
def preFsm (s : LoopState) (i : Input) : LoopState :=
  blinkPhase (timersPhase (qualifyPhase s i).1 i).1 i

theorem step_fst (s : LoopState) (i : Input) :
    (step s i).1 =
      (fsmPhase (preFsm s i) (timersPhase (qualifyPhase s i).1 i).2
        (qualifyPhase s i).2.1 i.button).1 := rfl

theorem step_delayMs (s : LoopState) (i : Input) :
    (step s i).2.delayMs =
      (fsmPhase (preFsm s i) (timersPhase (qualifyPhase s i).1 i).2
        (qualifyPhase s i).2.1 i.button).2 := rfl

theorem preFsm_state (s : LoopState) (i : Input) :
    (preFsm s i).state = s.state := by
  unfold preFsm
  rw [blinkPhase_state, timersPhase_state, qualifyPhase_state]

theorem preFsm_fanRunning (s : LoopState) (i : Input) :
    (preFsm s i).fanRunning = s.fanRunning := by
  unfold preFsm
  rw [blinkPhase_fanRunning, timersPhase_fanRunning, qualifyPhase_fanRunning]

theorem preFsm_stopDetection (s : LoopState) (i : Input) :
    (preFsm s i).stopDetection =
      if 0 < s.stopDetection then timepassed s.stopDetection i.now s.lastUSec
      else s.stopDetection := by
  unfold preFsm
  rw [blinkPhase_stopDetection, timersPhase_stopDetection,
    qualifyPhase_stopDetection, qualifyPhase_lastUSec]

theorem preFsm_timeRemaining (s : LoopState) (i : Input) :
    (preFsm s i).timeRemaining =
      if 0 < s.timeRemaining then timepassed s.timeRemaining i.now s.lastUSec
      else s.timeRemaining := by
  unfold preFsm
  rw [blinkPhase_timeRemaining, timersPhase_timeRemaining,
    qualifyPhase_timeRemaining, qualifyPhase_lastUSec]

theorem preFsm_fanTimeRemain (s : LoopState) (i : Input) :
    (preFsm s i).fanTimeRemain =
      if 0 < s.fanTimeRemain then timepassed s.fanTimeRemain i.now s.lastUSec
      else s.fanTimeRemain := by
  unfold preFsm
  rw [blinkPhase_fanTimeRemain, timersPhase_fanTimeRemain,
    qualifyPhase_fanTimeRemain, qualifyPhase_lastUSec]

theorem preFsm_ns (s : LoopState) (i : Input) :
    (timersPhase (qualifyPhase s i).1 i).2 =
      if 0 < s.timeRemaining ∧
          (if 0 < s.timeRemaining then timepassed s.timeRemaining i.now s.lastUSec
           else s.timeRemaining) = 0
      then controlState.ACTIVATE else s.state := by
  rw [timersPhase_ns, qualifyPhase_timeRemaining, qualifyPhase_lastUSec,
    qualifyPhase_state]

/-- Claim C6: from Idle with the fan not running, a qualified-motion
event with stopDetection = 0 moves the machine to Detected; the
Detected state (fan off) arms timeRemaining = c_DELAY_TIME (5 minutes,
300000000 us) and returns to Idle; and on a tick in which the armed
timeRemaining is decremented to exactly 0 with no other input the
machine transitions to Activate in that same tick. -/
theorem timed_activation_sequence (s : LoopState) (i : Input) :
    (s.state = controlState.IDLE → s.fanRunning = false → s.stopDetection = 0 →
      (step s i).2.motionDetected = true →
      (step s i).1.state = controlState.DETECTED) ∧
    (s.state = controlState.DETECTED → s.fanRunning = false →
      (step s i).1.state = controlState.IDLE ∧
      (step s i).1.timeRemaining = c_DELAY_TIME ∧ c_DELAY_TIME = 300000000) ∧
    (s.state = controlState.IDLE → s.fanRunning = false → i.button = false →
      (step s i).2.motionDetected = false → 0 < s.timeRemaining →
      s.timeRemaining ≤ elapsedOf i.now s.lastUSec →
      (step s i).1.timeRemaining = 0 ∧
      (step s i).1.state = controlState.ACTIVATE) := by
  refine ⟨?_, ?_, ?_⟩
  · intro hs hf hsd hm
    rw [step_motion] at hm
    have h3s : (preFsm s i).state = controlState.IDLE := by
      rw [preFsm_state, hs]
    have h3sd : (preFsm s i).stopDetection = 0 := by
      rw [preFsm_stopDetection, hsd]
      simp
    rw [step_fst, fsmPhase_idle _ _ _ _ h3s]
    simp [hm, h3sd]
  · intro hs hf
    have h3s : (preFsm s i).state = controlState.DETECTED := by
      rw [preFsm_state, hs]
    have h3f : (preFsm s i).fanRunning = false := by
      rw [preFsm_fanRunning, hf]
    refine ⟨?_, ?_, rfl⟩
    · rw [step_fst, fsmPhase_detected _ _ _ _ h3s, h3f]
      simp
    · rw [step_fst, fsmPhase_detected _ _ _ _ h3s, h3f]
      simp
  · intro hs hf hb hm htr he
    rw [step_motion] at hm
    have htp : timepassed s.timeRemaining i.now s.lastUSec = 0 := by
      simp only [timepassed]
      split <;> omega
    have h3s : (preFsm s i).state = controlState.IDLE := by
      rw [preFsm_state, hs]
    have h3f : (preFsm s i).fanRunning = false := by
      rw [preFsm_fanRunning, hf]
    have ht1 : (preFsm s i).timeRemaining = 0 := by
      rw [preFsm_timeRemaining, if_pos htr, htp]
    have hns : (timersPhase (qualifyPhase s i).1 i).2 = controlState.ACTIVATE := by
      rw [preFsm_ns, if_pos htr, htp]
      simp [htr]
    refine ⟨?_, ?_⟩
    · rw [step_fst, fsmPhase_idle _ _ _ _ h3s]
      simpa using ht1
    · rw [step_fst, fsmPhase_idle _ _ _ _ h3s]
      simp [hm, hb, h3f, hns]

/-- Witness for C6: part one at a state one positive push away from a
full register, part two in the Detected state, part three with an armed
timer of 5 us and 10 us of elapsed time. -/
theorem timed_activation_sequence_witness :
    (step { initState with detectionSet := 127 } ⟨0, 200, false⟩).1.state =
      controlState.DETECTED ∧
    ((step { initState with state := controlState.DETECTED } ⟨0, 0, false⟩).1.state =
      controlState.IDLE ∧
     (step { initState with state := controlState.DETECTED }
       ⟨0, 0, false⟩).1.timeRemaining = c_DELAY_TIME ∧ c_DELAY_TIME = 300000000) ∧
    ((step { initState with timeRemaining := 5 } ⟨10, 0, false⟩).1.timeRemaining = 0 ∧
     (step { initState with timeRemaining := 5 } ⟨10, 0, false⟩).1.state =
      controlState.ACTIVATE) := by
  refine ⟨?_, ?_, ?_⟩
  · exact (timed_activation_sequence { initState with detectionSet := 127 }
      ⟨0, 200, false⟩).1 rfl rfl rfl (by decide)
  · exact (timed_activation_sequence { initState with state := controlState.DETECTED }
      ⟨0, 0, false⟩).2.1 rfl rfl
  · exact (timed_activation_sequence { initState with timeRemaining := 5 }
      ⟨10, 0, false⟩).2.2 rfl rfl rfl (by decide) (by decide) (by decide)

/-! ## Claim C7: runtime expiry and the Reset state -/

/-- A 14-tick input sequence from the initial state: a manual activation
on tick 1, then raw samples of 225 paced so that a detection bit is
pushed every 100 ms; it leaves the machine in Idle with the fan running,
the detection register at 127 and the inter-sample countdown expired. -/
def c7Inputs : List Input := [
  ⟨100, 225, true⟩, ⟨100100, 225, false⟩, ⟨100200, 225, false⟩,
  ⟨200200, 225, false⟩, ⟨200300, 225, false⟩, ⟨300300, 225, false⟩,
  ⟨300400, 225, false⟩, ⟨400400, 225, false⟩, ⟨400500, 225, false⟩,
  ⟨500500, 225, false⟩, ⟨500600, 225, false⟩, ⟨600600, 225, false⟩,
  ⟨600700, 225, false⟩, ⟨700700, 225, false⟩ ]

/-- The 15th tick: the runtime expires on the same tick as the eighth
positive push. -/
def c7LastInput : Input := ⟨480100100, 225, false⟩

/-- A 3-tick input sequence reaching Reset through runtime expiry with
the button released on the expiry tick. -/
def c7ExpiryInputs : List Input :=
  [⟨100, 0, true⟩, ⟨200, 0, false⟩, ⟨480000300, 0, false⟩]

set_option maxRecDepth 100000 in
/-- Counterexample to C7 as stated.  First failure: on a reachable tick
with the fan running, fanTimeRemain decremented to 0 and the pushbutton
released, Idle moves to Detected (qualified motion has priority), not to
Reset.  Second failure: a Reset reached through runtime expiry (button
released on the triggering tick) still performs the blocking 3 s wait
when the button happens to be pressed during the Reset tick, so the
wait is not equivalent to the Reset having been manually triggered. -/
theorem runtime_expiry_counterexample :
    ((runState initState c7Inputs).state = controlState.IDLE ∧
     (runState initState c7Inputs).fanRunning = true ∧
     c7LastInput.button = false ∧
     (step (runState initState c7Inputs) c7LastInput).1.fanTimeRemain = 0 ∧
     (step (runState initState c7Inputs) c7LastInput).1.state =
       controlState.DETECTED) ∧
    ((runState initState c7ExpiryInputs).state = controlState.RESET ∧
     (c7ExpiryInputs.getLast?.map Input.button = some false) ∧
     (step (runState initState c7ExpiryInputs) ⟨480000400, 0, true⟩).2.delayMs =
       3000) := by
  decide

/-- Claim C7 as amended: the Idle-to-Reset transition on runtime expiry
additionally requires that no qualified-motion event fires on that tick
(qualified motion with stopDetection = 0 takes priority and moves to
Detected instead), and the blocking 3 s wait in Reset occurs if and
only if the pushbutton reads pressed during the Reset tick itself. -/
theorem runtime_expiry_reset_amended (s : LoopState) (i : Input) :
    (s.state = controlState.IDLE → s.fanRunning = true → i.button = false →
      ¬((step s i).2.motionDetected = true ∧ (step s i).1.stopDetection = 0) →
      (step s i).1.fanTimeRemain = 0 →
      (step s i).1.state = controlState.RESET) ∧
    (s.state = controlState.RESET →
      (step s i).1.state = controlState.IDLE ∧
      (step s i).1.fanRunning = false ∧
      (step s i).1.fanTimeRemain = 0 ∧
      (step s i).1.timeRemaining = 0 ∧
      (step s i).1.relayPin = false ∧
      (step s i).1.ledPin = false ∧
      (step s i).1.blockMotionIn = 5 * c_BLOCK_DETECTION_DELAY ∧
      ((step s i).2.delayMs = 3000 ↔ i.button = true)) := by
  constructor
  · intro hs hf hb hm hft
    have h3s : (preFsm s i).state = controlState.IDLE := by
      rw [preFsm_state, hs]
    have h3f : (preFsm s i).fanRunning = true := by
      rw [preFsm_fanRunning, hf]
    have hsd_eq : (step s i).1.stopDetection = (preFsm s i).stopDetection := by
      rw [step_fst, fsmPhase_idle _ _ _ _ h3s]
    have hft_eq : (step s i).1.fanTimeRemain = (preFsm s i).fanTimeRemain := by
      rw [step_fst, fsmPhase_idle _ _ _ _ h3s]
    have hm2 : ¬((qualifyPhase s i).2.1 = true ∧ (preFsm s i).stopDetection = 0) := by
      rw [← step_motion, ← hsd_eq]
      exact hm
    have h3ft : (preFsm s i).fanTimeRemain = 0 := by
      rw [← hft_eq]
      exact hft
    rw [step_fst, fsmPhase_idle _ _ _ _ h3s]
    rw [if_neg hm2]
    rw [if_neg (by simp [hb])]
    rw [if_neg (by simp [hb])]
    rw [if_pos ⟨h3ft, h3f⟩]
  · intro hs
    have h3s : (preFsm s i).state = controlState.RESET := by
      rw [preFsm_state, hs]
    refine ⟨?_, ?_, ?_, ?_, ?_, ?_, ?_, ?_⟩ <;>
      first
      | (rw [step_fst, fsmPhase_reset _ _ _ _ h3s])
      | (rw [step_delayMs, fsmPhase_reset _ _ _ _ h3s]
         cases hbtn : i.button <;> simp [hbtn])

/-- Witness for C7 as amended: expiry-triggered Reset with the button
released, and the Reset side effects from the Reset state. -/
theorem runtime_expiry_reset_amended_witness :
    (step { initState with fanRunning := true, fanTimeRemain := 5 }
      ⟨10, 0, false⟩).1.state = controlState.RESET ∧
    (step { initState with state := controlState.RESET }
      ⟨0, 0, true⟩).2.delayMs = 3000 := by
  constructor
  · exact (runtime_expiry_reset_amended
      { initState with fanRunning := true, fanTimeRemain := 5 } ⟨10, 0, false⟩).1
      rfl rfl rfl (by decide) (by decide)
  · exact ((runtime_expiry_reset_amended
      { initState with state := controlState.RESET } ⟨0, 0, true⟩).2
      rfl).2.2.2.2.2.2.2.mpr rfl

/-! ## Claim C8: the post-detection cool-down window -/

theorem trace_cons (s : LoopState) (i : Input) (r : List Input) :
    trace s (i :: r) = (step s i).1 :: trace (step s i).1 r := rfl

theorem elapsedSum_cons (last : Nat) (i : Input) (r : List Input) :
    elapsedSum last (i :: r) = elapsedOf i.now last + elapsedSum i.now r := rfl

theorem step_stopDetection_nonDetected (s : LoopState) (i : Input)
    (h : s.state ≠ controlState.DETECTED) :
    (step s i).1.stopDetection = (preFsm s i).stopDetection := by
  rw [step_fst]
  cases hs : s.state
  case IDLE => rw [fsmPhase_idle _ _ _ _ (by rw [preFsm_state, hs])]
  case DETECTED => exact absurd hs h
  case ACTIVATE => rw [fsmPhase_activate _ _ _ _ (by rw [preFsm_state, hs])]
  case RESET => rw [fsmPhase_reset _ _ _ _ (by rw [preFsm_state, hs])]

theorem step_stopDetection_ge (s : LoopState) (i : Input)
    (h : s.state ≠ controlState.DETECTED) :
    s.stopDetection - elapsedOf i.now s.lastUSec ≤ (step s i).1.stopDetection := by
  rw [step_stopDetection_nonDetected s i h, preFsm_stopDetection]
  split
  · exact timepassed_ge _ _ _
  · omega

theorem step_detected_arms (s : LoopState) (i : Input)
    (h : s.state = controlState.DETECTED) :
    (step s i).1.stopDetection = c_BLOCK_DETECTION_DELAY := by
  rw [step_fst, fsmPhase_detected _ _ _ _ (by rw [preFsm_state, h])]
  split_ifs <;> rfl

theorem step_detected_only_from_idle (s : LoopState) (i : Input)
    (h : (step s i).1.state = controlState.DETECTED) :
    s.state = controlState.IDLE ∧ (step s i).1.stopDetection = 0 := by
  cases hs : s.state
  case IDLE =>
    refine ⟨rfl, ?_⟩
    rw [step_fst, fsmPhase_idle _ _ _ _ (by rw [preFsm_state, hs])] at h ⊢
    by_cases hc1 : (qualifyPhase s i).2.1 = true ∧ (preFsm s i).stopDetection = 0
    · show (preFsm s i).stopDetection = 0
      exact hc1.2
    · exfalso
      rw [if_neg hc1] at h
      have h2 : (if (preFsm s i).fanRunning = true ∧ i.button = true then
          controlState.RESET
        else if i.button = true ∧ (preFsm s i).fanRunning = false then
          controlState.ACTIVATE
        else if (preFsm s i).fanTimeRemain = 0 ∧ (preFsm s i).fanRunning = true then
          controlState.RESET
        else (timersPhase (qualifyPhase s i).1 i).2) = controlState.DETECTED := h
      rw [preFsm_ns, hs] at h2
      split_ifs at h2
  case DETECTED =>
    exfalso
    rw [step_fst, fsmPhase_detected _ _ _ _ (by rw [preFsm_state, hs])] at h
    split_ifs at h
  case ACTIVATE =>
    exfalso
    rw [step_fst, fsmPhase_activate _ _ _ _ (by rw [preFsm_state, hs])] at h
    simp_all
  case RESET =>
    exfalso
    rw [step_fst, fsmPhase_reset _ _ _ _ (by rw [preFsm_state, hs])] at h
    simp_all

theorem cooldown_aux (ins : List Input) :
    ∀ s : LoopState, s.state ≠ controlState.DETECTED →
      elapsedSum s.lastUSec ins < s.stopDetection →
      ∀ s2 ∈ trace s ins, s2.state ≠ controlState.DETECTED := by
  induction ins with
  | nil =>
    intro s h1 h2 s2 hmem
    simp [trace] at hmem
  | cons i r ih =>
    intro s h1 h2 s2 hmem
    rw [trace_cons] at hmem
    rw [elapsedSum_cons] at h2
    have hge := step_stopDetection_ge s i h1
    have hpos : elapsedSum i.now r < (step s i).1.stopDetection := by omega
    have hns : (step s i).1.state ≠ controlState.DETECTED := by
      intro hd
      have hz := (step_detected_only_from_idle s i hd).2
      omega
    rcases List.mem_cons.mp hmem with hmm | hmm
    · rw [hmm]
      exact hns
    · exact ih (step s i).1 hns (by rw [step_lastUSec]; exact hpos) s2 hmm

/-- Claim C8: processing the Detected state always arms stopDetection to
c_BLOCK_DETECTION_DELAY (3 s); the machine enters Detected only from
Idle and only on a tick whose (post-decrement) stopDetection is 0; and
from a Detected state, as long as the accumulated wrapped elapsed time
of the following ticks stays below 3 s, no later state is Detected
again, so a second qualified-motion event inside the window never causes
re-entry. -/
theorem retrigger_suppression_window (s0 : LoopState) (i1 : Input)
    (ins : List Input) (h0 : s0.state = controlState.DETECTED)
    (hsum : elapsedSum i1.now ins < c_BLOCK_DETECTION_DELAY) :
    (step s0 i1).1.stopDetection = c_BLOCK_DETECTION_DELAY ∧
    (∀ s i, (step s i).1.state = controlState.DETECTED →
      s.state = controlState.IDLE ∧ (step s i).1.stopDetection = 0) ∧
    (step s0 i1).1.state ≠ controlState.DETECTED ∧
    ∀ s2 ∈ trace (step s0 i1).1 ins, s2.state ≠ controlState.DETECTED := by
  have harm := step_detected_arms s0 i1 h0
  have hnd : (step s0 i1).1.state ≠ controlState.DETECTED := by
    intro hd
    have hz := (step_detected_only_from_idle _ _ hd).2
    rw [harm] at hz
    simp [c_BLOCK_DETECTION_DELAY] at hz
  refine ⟨harm, fun s i h => step_detected_only_from_idle s i h, hnd, ?_⟩
  apply cooldown_aux ins (step s0 i1).1 hnd
  rw [step_lastUSec, harm]
  exact hsum

/-- Witness for C8: one tick in Detected arms the window, and a
subsequent tick 100 us later stays out of Detected. -/
theorem retrigger_suppression_window_witness :
    (step { initState with state := controlState.DETECTED }
      ⟨0, 0, false⟩).1.stopDetection = c_BLOCK_DETECTION_DELAY ∧
    ∀ s2 ∈ trace (step { initState with state := controlState.DETECTED }
      ⟨0, 0, false⟩).1 [⟨100, 0, false⟩],
      s2.state ≠ controlState.DETECTED := by
  have h := retrigger_suppression_window
    { initState with state := controlState.DETECTED } ⟨0, 0, false⟩
    [⟨100, 0, false⟩] rfl (by decide)
  exact ⟨h.1, h.2.2.2⟩

/-! ## Claim C2: the detection shift register -/

theorem pushBit_true (d : Nat) : pushBit d true = 2 * d % 256 + 1 := by
  have key : ∀ x, x < 256 → x % 2 = 0 → x ||| 1 = x + 1 := by decide
  show 2 * d % 256 ||| 1 = 2 * d % 256 + 1
  exact key (2 * d % 256) (by omega) (by omega)

theorem pushBit_false (d : Nat) : pushBit d false = 2 * d % 256 := by
  show 2 * d % 256 ||| 0 = 2 * d % 256
  exact Nat.or_zero _

theorem pushBit_eq (d : Nat) (b : Bool) :
    pushBit d b = 2 * d % 256 + (if b then 1 else 0) := by
  cases b
  · simpa using pushBit_false d
  · simpa using pushBit_true d

theorem pushBit_lt (d : Nat) (b : Bool) : pushBit d b < 256 := by
  rw [pushBit_eq]
  split <;> omega

theorem pushSeq_nil (x : Nat) : pushSeq x [] = x := rfl

theorem pushSeq_cons (x : Nat) (b : Bool) (bs : List Bool) :
    pushSeq x (b :: bs) = pushSeq (pushBit x b) bs := rfl

theorem pushSeq_lt (bs : List Bool) : ∀ x : Nat, x < 256 → pushSeq x bs < 256 := by
  induction bs with
  | nil => intro x hx; exact hx
  | cons b tl ih =>
    intro x hx
    rw [pushSeq_cons]
    exact ih (pushBit x b) (pushBit_lt x b)

theorem pow_dvd_256 (k : Nat) (h : k ≤ 8) : (2 ^ k : Nat) ∣ 256 := by
  have h2 : (256 : Nat) = 2 ^ 8 := by norm_num
  rw [h2]
  exact pow_dvd_pow 2 h

theorem mod256_mod_pow (a k : Nat) (h : k ≤ 8) : a % 256 % 2 ^ k = a % 2 ^ k :=
  Nat.mod_mod_of_dvd a (pow_dvd_256 k h)

theorem two_mul_mod_pow (x k : Nat) : 2 * x % 2 ^ (k + 1) = 2 * (x % 2 ^ k) := by
  rw [pow_succ, Nat.mul_comm (2 ^ k) 2]
  exact Nat.mul_mod_mul_left 2 x (2 ^ k)

theorem pushSeq_all_true (bs : List Bool) :
    ∀ x k : Nat, (∀ b ∈ bs, b = true) → k + bs.length ≤ 8 →
      x % 2 ^ k = 2 ^ k - 1 →
      pushSeq x bs % 2 ^ (k + bs.length) = 2 ^ (k + bs.length) - 1 := by
  induction bs with
  | nil =>
    intro x k _ _ hx
    simpa using hx
  | cons b tl ih =>
    intro x k hall hle hx
    have hb : b = true := hall b (List.mem_cons_self b tl)
    subst hb
    have hk1 : k + 1 ≤ 8 := by
      simp only [List.length_cons] at hle
      omega
    have hp : 0 < 2 ^ k := pow_pos (by norm_num) k
    have hstep : pushBit x true % 2 ^ (k + 1) = 2 ^ (k + 1) - 1 := by
      rw [pushBit_true]
      have hm : 2 * x % 256 % 2 ^ (k + 1) = 2 * x % 2 ^ (k + 1) :=
        mod256_mod_pow _ _ hk1
      have hd : 2 * x % 2 ^ (k + 1) = 2 * (x % 2 ^ k) := two_mul_mod_pow x k
      have hsucc : (2 : Nat) ^ (k + 1) = 2 * 2 ^ k := by
        rw [pow_succ]
        ring
      have hmod : 2 * x % 256 % 2 ^ (k + 1) = 2 ^ (k + 1) - 2 := by
        rw [hm, hd, hx]
        omega
      rw [Nat.add_mod, hmod]
      rw [Nat.mod_eq_of_lt (show (1 : Nat) < 2 ^ (k + 1) by omega)]
      rw [show 2 ^ (k + 1) - 2 + 1 = 2 ^ (k + 1) - 1 by omega]
      exact Nat.mod_eq_of_lt (by omega)
    have hrec := ih (pushBit x true) (k + 1)
      (fun b hb => hall b (List.mem_cons_of_mem _ hb))
      (by simp only [List.length_cons] at hle; omega) hstep
    rw [pushSeq_cons]
    rw [show k + (true :: tl).length = k + 1 + tl.length from by
      simp only [List.length_cons]; omega]
    exact hrec

theorem pushSeq_false_low (bs : List Bool) :
    ∀ x k : Nat, x % 2 ^ (k + 1) < 2 ^ k → k + 1 + bs.length ≤ 8 →
      pushSeq x bs % 2 ^ (k + 1 + bs.length) < 2 ^ (k + bs.length) := by
  induction bs with
  | nil =>
    intro x k hx _
    simpa using hx
  | cons b tl ih =>
    intro x k hx hle
    have hk2 : k + 2 ≤ 8 := by
      simp only [List.length_cons] at hle
      omega
    have hp : 0 < 2 ^ k := pow_pos (by norm_num) k
    have hstep : pushBit x b % 2 ^ (k + 2) < 2 ^ (k + 1) := by
      rw [pushBit_eq]
      have hm : 2 * x % 256 % 2 ^ (k + 2) = 2 * x % 2 ^ (k + 2) :=
        mod256_mod_pow _ _ hk2
      have hd : 2 * x % 2 ^ (k + 2) = 2 * (x % 2 ^ (k + 1)) :=
        two_mul_mod_pow x (k + 1)
      have hsucc : (2 : Nat) ^ (k + 1) = 2 * 2 ^ k := by
        rw [pow_succ]
        ring
      have hlt : 2 * x % 256 % 2 ^ (k + 2) + (if b then 1 else 0) < 2 ^ (k + 1) := by
        rw [hm, hd]
        have hcb : (if b then 1 else 0) ≤ 1 := by cases b <;> simp
        omega
      have hmle : (2 : Nat) ^ (k + 1) ≤ 2 ^ (k + 2) :=
        Nat.pow_le_pow_right (by norm_num) (by omega)
      have hc : (if b then 1 else 0) < 2 ^ (k + 2) := by
        have h0 : (0 : Nat) < 2 ^ (k + 2) := pow_pos (by norm_num) _
        have hcb : (if b then 1 else 0) ≤ 1 := by cases b <;> simp
        omega
      rw [Nat.add_mod, Nat.mod_eq_of_lt hc, Nat.mod_eq_of_lt (by omega)]
      exact hlt
    have hrec := ih (pushBit x b) (k + 1) hstep
      (by simp only [List.length_cons] at hle; omega)
    rw [pushSeq_cons]
    rw [show k + 1 + (b :: tl).length = k + 1 + 1 + tl.length from by
      simp only [List.length_cons]; omega]
    rw [show k + (b :: tl).length = k + 1 + tl.length from by
      simp only [List.length_cons]; omega]
    exact hrec

theorem pushSeq_eight_true (d : Nat) (bs : List Bool) (h8 : bs.length = 8)
    (hall : ∀ b ∈ bs, b = true) : pushSeq d bs = 255 := by
  have h := pushSeq_all_true bs d 0 hall (by omega) (by simp [Nat.mod_one])
  rw [h8] at h
  have hlt : pushSeq d bs < 256 := by
    cases bs with
    | nil => simp at h8
    | cons b tl =>
      rw [pushSeq_cons]
      exact pushSeq_lt tl _ (pushBit_lt _ _)
  have h256 : (2 : Nat) ^ (0 + 8) = 256 := by norm_num
  rw [h256] at h
  rwa [Nat.mod_eq_of_lt hlt] at h

theorem pushSeq_false_not_full (d : Nat) (bs : List Bool) (h : bs.length < 8) :
    pushSeq (pushBit d false) bs ≠ 255 := by
  intro hEq
  have hx : pushBit d false % 2 ^ (0 + 1) < 2 ^ 0 := by
    rw [pushBit_false]
    norm_num
  have hlow := pushSeq_false_low bs (pushBit d false) 0 hx (by omega)
  rw [hEq] at hlow
  have h255 : ∀ m, m ≤ 8 → 255 % 2 ^ m = 2 ^ m - 1 := by decide
  rw [h255 (0 + 1 + bs.length) (by omega)] at hlow
  have hp : 0 < 2 ^ (0 + bs.length) := pow_pos (by norm_num) _
  have hpow : (2 : Nat) ^ (0 + 1 + bs.length) = 2 * 2 ^ (0 + bs.length) := by
    rw [show 0 + 1 + bs.length = 0 + bs.length + 1 from by omega, pow_succ]
    ring
  omega

theorem pushSeq_eight_of_full (d : Nat) (bs : List Bool) (h8 : bs.length = 8)
    (hEq : pushSeq d bs = 255) : ∀ b ∈ bs, b = true := by
  by_contra hnot
  push_neg at hnot
  obtain ⟨b, hmem, hb⟩ := hnot
  have hbf : b = false := by cases b <;> simp_all
  subst hbf
  obtain ⟨l, r, rfl⟩ := List.append_of_mem hmem
  have hr : r.length < 8 := by
    simp only [List.length_append, List.length_cons] at h8
    omega
  have hsplit : pushSeq d (l ++ false :: r) =
      pushSeq (pushBit (pushSeq d l) false) r := by
    simp only [pushSeq, List.foldl_append, List.foldl_cons]
  rw [hsplit] at hEq
  exact pushSeq_false_not_full _ r hr hEq

/-- Claim C2 as amended: on every tick that starts with blockMotionIn = 0
the qualified-motion flag equals the all-eight-bits-set test of the
detection shift register after the update of the tick, a detection bit
is pushed exactly on the ticks whose inter-sample countdown has reached
0 (which rearms it to c_DETECTION_INTER_DELAY = 100 ms) and the register
is unchanged otherwise; after any eight pushes the register is full iff
all eight pushed bits were positive, and after a negative push fewer
than eight further pushes can never fill it.  On a tick that starts with
blockMotionIn nonzero the flag is false regardless of the register
contents (the forced amendment). -/
theorem qualified_motion_unanimous_window (s : LoopState) (i : Input) :
    (∀ v, v < 256 → (qualifyAllBits v = true ↔ ∀ j, j < 8 → v.testBit j = true)) ∧
    (s.blockMotionIn = 0 →
      (step s i).2.motionDetected = qualifyAllBits ((step s i).1.detectionSet)) ∧
    (s.blockMotionIn = 0 → s.sampleReadTime = 0 →
      (step s i).1.detectionSet =
        pushBit s.detectionSet
          (qualifyAnalog ⟨s.readings, s.readingIndex⟩ i.rawSample).2 ∧
      (step s i).1.sampleReadTime = c_DETECTION_INTER_DELAY) ∧
    (s.blockMotionIn = 0 → s.sampleReadTime ≠ 0 →
      (step s i).1.detectionSet = s.detectionSet) ∧
    (s.blockMotionIn ≠ 0 →
      (step s i).2.motionDetected = false ∧
      (step s i).1.detectionSet = s.detectionSet) ∧
    (∀ (d : Nat) (bs : List Bool), bs.length = 8 →
      (pushSeq d bs = 255 ↔ ∀ b ∈ bs, b = true)) ∧
    (∀ (d : Nat) (bs : List Bool), bs.length < 8 →
      pushSeq (pushBit d false) bs ≠ 255) := by
  refine ⟨?_, ?_, ?_, ?_, ?_, ?_, ?_⟩
  · have key : ∀ v < 256, (qualifyAllBits v = true ↔ ∀ j < 8, v.testBit j = true) := by
      decide
    exact key
  · intro hb
    rw [step_motion, step_detectionSet]
    exact qualifyPhase_motion_of_unblocked s i hb
  · intro hb hsrt
    have h := qualifyPhase_push s i hb hsrt
    exact ⟨by rw [step_detectionSet]; exact h.1,
           by rw [step_sampleReadTime]; exact h.2⟩
  · intro hb hsrt
    rw [step_detectionSet]
    exact qualifyPhase_no_push s i hb hsrt
  · intro hb
    have h := qualifyPhase_blocked s i hb
    exact ⟨by rw [step_motion]; exact h.2, by rw [step_detectionSet]; exact h.1⟩
  · intro d bs h8
    exact ⟨pushSeq_eight_of_full d bs h8, pushSeq_eight_true d bs h8⟩
  · intro d bs h
    exact pushSeq_false_not_full d bs h

/-- A 19-tick input sequence from the initial state: eight paced positive
pushes fill the register while a manual activation runs the fan, the
runtime expires on the eighth push (tick 15, entering Detected), the
machine then re-activates, a button press while the cool-down is nonzero
reaches Reset, and Reset arms the 15 s motion block; the register still
holds 255. -/
def c2Inputs : List Input := [
  ⟨100, 225, true⟩, ⟨100100, 225, false⟩, ⟨100200, 225, false⟩,
  ⟨200200, 225, false⟩, ⟨200300, 225, false⟩, ⟨300300, 225, false⟩,
  ⟨300400, 225, false⟩, ⟨400400, 225, false⟩, ⟨400500, 225, false⟩,
  ⟨500500, 225, false⟩, ⟨500600, 225, false⟩, ⟨600600, 225, false⟩,
  ⟨600700, 225, false⟩, ⟨700700, 225, false⟩, ⟨480100100, 225, false⟩,
  ⟨480100200, 225, false⟩, ⟨480100300, 225, false⟩, ⟨480100400, 225, true⟩,
  ⟨480100500, 225, false⟩ ]

/-- Counterexample to C2 as stated: on the reachable tick after the
sequence above the detection shift register has all 8 bits set
(detectionSet = 255, qualifyAllBits 255 = true), yet the qualified-motion
flag of that tick is false, because the tick starts with
blockMotionIn = 15000000 and the qualifier block is skipped. -/
theorem qualified_motion_blocked_tick_counterexample :
    (runState initState c2Inputs).blockMotionIn = 15000000 ∧
    (step (runState initState c2Inputs) ⟨480100600, 225, false⟩).1.detectionSet =
      255 ∧
    qualifyAllBits 255 = true ∧
    (step (runState initState c2Inputs) ⟨480100600, 225, false⟩).2.motionDetected =
      false := by
  decide

/-- Witness for C2 as amended: the flag-register equality on an
unblocked tick from the initial state, and a full register after eight
positive pushes. -/
theorem qualified_motion_unanimous_window_witness :
    (step initState ⟨0, 0, false⟩).2.motionDetected =
      qualifyAllBits ((step initState ⟨0, 0, false⟩).1.detectionSet) ∧
    pushSeq 0 [true, true, true, true, true, true, true, true] = 255 := by
  refine ⟨(qualified_motion_unanimous_window initState ⟨0, 0, false⟩).2.1 rfl, ?_⟩
  exact ((qualified_motion_unanimous_window initState ⟨0, 0, false⟩).2.2.2.2.2.1 0
    [true, true, true, true, true, true, true, true] rfl).mpr (by decide)

/-! ## Claim C10: the uninitialized detect local -/

/-- A 5-tick reachable input sequence: manual activation (tick 1),
Activate runs the fan (tick 2), a second press while running sends Idle
to Reset (tick 3), Reset arms blockMotionIn = 15 s (tick 4), and tick 5
therefore starts with blockMotionIn positive. -/
def c10Inputs : List Input :=
  [⟨100, 0, true⟩, ⟨200, 0, false⟩, ⟨300, 0, true⟩, ⟨400, 0, false⟩,
   ⟨500, 0, false⟩]

/-- Claim C10: on a reachable tick that starts with blockMotionIn > 0
the qualifier block is skipped, so the local detect is never assigned,
yet digitalWrite(LED_BUILTIN, detect) still executes; in the model the
write carries none (the indeterminate value).  The run from the initial
state exhibits such a tick. -/
theorem uninitialized_builtin_led_write_reachable :
    (runState initState (c10Inputs.take 4)).blockMotionIn = 15000000 ∧
    (runState initState c10Inputs).ledBuiltinPin = none ∧
    initState.ledBuiltinPin ≠ none := by
  decide
